import Mathlib

/-!
# Verification of the gluten-development analysis pipeline

Shallow embedding of the numeric analysis pipeline duplicated across
`gluten_analysis_app.py` (function `analyze_gluten_development` plus the
classification code in `main`) and `gluten_analysis_simple.py`
(`analyze_gluten_development` plus `create_analysis_plots`).

Modelling conventions:
* Floating-point values are modelled by exact rationals `ℚ`; float rounding is
  abstracted away, float special values are modelled explicitly where the code
  can produce them (`PyNum.inf` for numpy's `1/0.0`, `Option.none` for the NaN
  entries of a pandas rolling result).
* Python exceptions are modelled by `Except PyError`.
* Standard deviations (square roots) are represented by their squares
  (variances), which keeps every definition computable over `ℚ`; every
  comparison the code makes against a standard deviation is encoded by the
  equivalent squared comparison, and bridging lemmas relate the encoding to
  the real-valued `Real.sqrt` statement.
* Library calls are embedded with their documented/observable semantics:
  `pandas.Series.std` uses divisor `n-1` (ddof=1); `numpy.argmax` returns the
  first occurrence of the maximum; `scipy.signal.find_peaks` finds plateau
  midpoints bordered by strictly smaller samples and its `height` filter keeps
  peaks with value `>= height`; `pandas.Series.rolling(w, center=True)` uses
  windows of exactly `w` samples shifted by `(w-1)/2` and yields NaN where no
  full window exists; `Series.quantile` drops NaN and interpolates linearly;
  `scipy.signal.welch` is kept as an opaque parameter because no claim depends
  on its numerics, only on what the pipeline does with its output.
-/

namespace Gluten

/-- Python exception kinds that the embedded pipeline can raise. -/
inductive PyError where
  | indexError
  | valueError
  | overflowError
deriving DecidableEq, Repr

/-- A numpy float64 arithmetic result: an exact finite value or `inf`
(numpy emits `inf` with a `RuntimeWarning`, not an exception, on `1/0.0`). -/
inductive PyNum where
  | fin (q : ℚ)
  | inf
deriving DecidableEq, Repr

/-- The input record: the `time` column and the precomputed magnitude column
`gFTotal` of the loaded CSV. -/
structure DataFrame where
  time : List ℚ
  gFTotal : List ℚ
deriving DecidableEq, Repr

/-- Embedding of `pandas.Series.mean`: sum divided by length. -/
def mean (xs : List ℚ) : ℚ := xs.sum / (xs.length : ℚ)

/-- The square of `pandas.Series.std()`: the sample variance with divisor
`n - 1` (pandas' default `ddof=1`).  The code's `std_gforce` is the square
root of this value. -/
def sampleVar (xs : List ℚ) : ℚ :=
  (xs.map (fun x => (x - mean xs) ^ 2)).sum / ((xs.length : ℚ) - 1)

/-- The square of a population standard deviation (divisor `n`).  This is NOT
what the code computes; it is named after the spec's contrast ("not the
population standard deviation with divisor n") and exists only to be
compared against `sampleVar`. -/
def popVar (xs : List ℚ) : ℚ :=
  (xs.map (fun x => (x - mean xs) ^ 2)).sum / (xs.length : ℚ)

/-- Embedding of `sampling_rate = 1 / (df['time'].iloc[1] - df['time'].iloc[0])`
(line 43 of `gluten_analysis_app.py`, line 40 of `gluten_analysis_simple.py`).
`iloc[1]` on a series with fewer than two entries raises `IndexError`; when
the first two timestamps coincide, numpy's float division yields `inf`
(a warning, not an exception). -/
def inferRate (time : List ℚ) : Except PyError PyNum :=
  match time with
  | t0 :: t1 :: _ =>
      if t1 - t0 = 0 then .ok .inf else .ok (.fin (1 / (t1 - t0)))
  | _ => .error .indexError

/-- Python's `int()` on a float: truncation toward zero. -/
def pyInt (q : ℚ) : ℤ := if 0 ≤ q then ⌊q⌋ else ⌈q⌉

/-- Embedding of `window_size = int(sampling_rate * 10)` (line 49 / line 46).
Python's `int(inf)` raises `OverflowError`. -/
def windowSize (rate : PyNum) : Except PyError ℤ :=
  match rate with
  | .fin q => .ok (pyInt (q * 10))
  | .inf => .error .overflowError

/-- One entry of `Series.rolling(window=w, center=True).std()`, squared.
With `center=True` pandas computes, at output position `i`, the ddof=1
standard deviation of the `w` input samples starting at `i - w/2`
(the fixed-window indexer shifts windows by `offset = (w-1)/2`, so position
`i` is defined exactly when `w/2 ≤ i` and `i + (w-1)/2 < n`); every position
lacking a full window is NaN (`none`), and for `w < 2` the ddof=1 estimate
itself is NaN everywhere. -/
def rollingVarQ (xs : List ℚ) (w : Nat) : List (Option ℚ) :=
  (List.range xs.length).map fun i =>
    if 2 ≤ w ∧ w / 2 ≤ i ∧ i + (w - 1) / 2 < xs.length then
      some (sampleVar ((xs.drop (i - w / 2)).take w))
    else none

/-- Embedding of `df['gFTotal'].rolling(window=window_size, center=True).std()`
(line 50 / line 47), squared entrywise.  pandas rejects a negative window
with a generic `ValueError` ("window must be an integer 0 or greater");
windows `0` and `1` are accepted and produce an all-NaN series. -/
def rollingStdDev (xs : List ℚ) (w : ℤ) : Except PyError (List (Option ℚ)) :=
  if w < 0 then .error .valueError
  else .ok (rollingVarQ xs w.toNat)

/-- Embedding of `numpy.argmax`: the index of the first occurrence of the maximum value
(`0` on the empty list, which numpy rejects; the pipeline never applies it to
an empty array). -/
def npArgmax : List ℚ → Nat
  | [] => 0
  | [_] => 0
  | x :: y :: ys =>
    if x < (y :: ys).getD (npArgmax (y :: ys)) 0 then npArgmax (y :: ys) + 1
    else 0

/-- Embedding of `freqs[np.argmax(psd)]` (line 58 / line 55): the frequency bin of the
first maximal PSD value. -/
def dominantFreq (freqs psd : List ℚ) : ℚ := freqs.getD (npArgmax psd) 0

/-- The variation-coefficient classification applied to an already-computed
coefficient `c = std_gforce / mean_gforce` (lines 159-164 of
`gluten_analysis_app.py`, lines 141-146 of `gluten_analysis_simple.py`):
`if c > 0.1: high  elif c > 0.05: moderate  else: low`. -/
def classifyCoefficient (c : ℚ) : String :=
  if 1 / 10 < c then "high"
  else if 1 / 20 < c then "moderate"
  else "low"

/-- The same classification computed from the magnitude data: the code
compares `sqrt (sampleVar xs) / mean xs` against `0.1` and `0.05`; for a
positive mean those comparisons are equivalent to the squared comparisons
used here (`std/mean > t ↔ var > t²·mean²`), which keeps the definition
computable over `ℚ`.  The equivalence is proved in `claim5_boundaries`. -/
def classifyVariation (xs : List ℚ) : String :=
  if (mean xs) ^ 2 < 100 * sampleVar xs then "high"
  else if (mean xs) ^ 2 < 400 * sampleVar xs then "moderate"
  else "low"

/-- Embedding of `Series.quantile(0.75)` (line 140 / line 122): drop the NaN entries, sort,
and linearly interpolate at position `0.75 * (m - 1)`; an all-NaN series
yields NaN (`none`). -/
def quantile75 (rs : List (Option ℚ)) : Option ℚ :=
  match (rs.filterMap id).insertionSort (· ≤ ·) with
  | [] => none
  | v :: vt =>
    let m := (v :: vt).length
    let pos : ℚ := 3 * ((m : ℚ) - 1) / 4
    let f : Nat := 3 * (m - 1) / 4
    let lo := (v :: vt).getD f 0
    let hi := (v :: vt).getD (min (f + 1) (m - 1)) 0
    some (lo + (pos - (f : ℚ)) * (hi - lo))

/-- Embedding of `(rolling_std > rolling_std.quantile(0.75)).sum()` (line 140-143 /
line 122): the number of rolling entries strictly above the 75th percentile.
A NaN entry compares `False`; if the quantile itself is NaN every comparison
is `False` and the count is `0`. -/
def highActivityCount (rs : List (Option ℚ)) : Nat :=
  match quantile75 rs with
  | none => 0
  | some q =>
    (rs.filter fun o =>
      match o with
      | some v => decide (q < v)
      | none => false).length

/-- List indexing as the numpy arrays are indexed inside
`scipy.signal._local_maxima_1d`; all accesses are guarded to be in bounds, so
the default is never consulted. -/
def idx (x : List ℚ) (i : Nat) : ℚ := x.getD i 0

/-- The inner plateau scan of `scipy.signal._local_maxima_1d`: starting at
`j`, advance while `j < i_max` and `x[j]` still equals the candidate value
`v`; return the first index where the plateau ends. -/
def plateauEnd (x : List ℚ) (imax : Nat) (v : ℚ) (j : Nat) : Nat :=
  if j < imax ∧ idx x j = v then plateauEnd x imax v (j + 1) else j
termination_by imax - j
decreasing_by omega

theorem le_plateauEnd (x : List ℚ) (imax : Nat) (v : ℚ) (j : Nat) :
    j ≤ plateauEnd x imax v j := by
  induction j using plateauEnd.induct x imax v with
  | case1 j h ih =>
    rw [plateauEnd, if_pos h]
    omega
  | case2 j h =>
    rw [plateauEnd, if_neg h]

theorem plateauEnd_le (x : List ℚ) (imax : Nat) (v : ℚ) (j : Nat)
    (hj : j ≤ imax) : plateauEnd x imax v j ≤ imax := by
  induction j using plateauEnd.induct x imax v with
  | case1 j h ih =>
    rw [plateauEnd, if_pos h]
    exact ih (by omega)
  | case2 j h =>
    rw [plateauEnd, if_neg h]
    exact hj

/-- The scan loop of `scipy.signal._local_maxima_1d` (`i` from `1` while
`i < i_max` with `i_max = len - 1`): at a rising edge, scan the plateau; if it
is bordered by a strictly smaller value on the right, record the plateau
midpoint `(left_edge + right_edge) // 2` and resume after the plateau. -/
def lmAux (x : List ℚ) (i : Nat) : List Nat :=
  if i + 1 < x.length then
    if idx x (i - 1) < idx x i then
      let ia := plateauEnd x (x.length - 1) (idx x i) (i + 1)
      if idx x ia < idx x i then
        (i + (ia - 1)) / 2 :: lmAux x (ia + 1)
      else lmAux x (i + 1)
    else lmAux x (i + 1)
  else []
termination_by x.length - i
decreasing_by
  · have := le_plateauEnd x (x.length - 1) (idx x i) (i + 1)
    omega
  · omega
  · omega

/-- All local maxima (plateau midpoints) of a signal, as
`scipy.signal._local_maxima_1d` computes them. -/
def localMaxima (x : List ℚ) : List Nat := lmAux x 1

/-- The comparison `value >= mean + 0.5 * std` that scipy's `height` filter
applies (`keep = hmin <= peak_heights`), encoded over `ℚ` by squaring:
for `w ≥ 0`, `v ≥ m + sqrt w / 2  ↔  v ≥ m ∧ 4 (v - m)² ≥ w`.
The equivalence is proved in `heightOK_iff_real`. -/
def heightOK (v m w : ℚ) : Bool := decide (m ≤ v) && decide (w ≤ 4 * (v - m) ^ 2)

/-- Embedding of `signal.find_peaks(gFTotal, height=mean_gforce + 0.5*std_gforce)`
(line 40 / line 37): local maxima whose value meets or exceeds the
threshold; `m` is the magnitude mean and `w` the squared magnitude
standard deviation. -/
def findPeaks (x : List ℚ) (m w : ℚ) : List Nat :=
  (localMaxima x).filter fun p => heightOK (idx x p) m w

/-- The spec's notion of peak: a strict two-sided local maximum at an
interior index. -/
def strictPeakb (x : List ℚ) (i : Nat) : Bool :=
  decide (1 ≤ i) && decide (i + 1 < x.length) &&
  decide (idx x (i - 1) < idx x i) && decide (idx x (i + 1) < idx x i)

end Gluten

namespace Gluten

theorem sampleVar_nonneg (xs : List ℚ) : 0 ≤ sampleVar xs := by
  rcases xs with _ | ⟨x, xs⟩
  · simp [sampleVar]
  · apply div_nonneg
    · apply List.sum_nonneg
      intro q hq
      simp only [List.mem_map] at hq
      obtain ⟨a, _, rfl⟩ := hq
      positivity
    · have : (1 : ℚ) ≤ ((x :: xs).length : ℚ) := by
        exact_mod_cast Nat.succ_le_of_lt (Nat.pos_of_ne_zero (by simp))
      linarith

theorem mean_replicate (n : Nat) (c : ℚ) (hn : n ≠ 0) :
    mean (List.replicate n c) = c := by
  simp only [mean, List.sum_replicate, List.length_replicate, nsmul_eq_mul]
  have hn' : (n : ℚ) ≠ 0 := by exact_mod_cast hn
  field_simp

theorem sampleVar_replicate (n : Nat) (c : ℚ) :
    sampleVar (List.replicate n c) = 0 := by
  rcases n with _ | n
  · simp [sampleVar]
  · simp only [sampleVar, mean_replicate (n + 1) c (by omega)]
    have : (List.replicate (n + 1) c).map (fun x => (x - c) ^ 2)
        = List.replicate (n + 1) 0 := by
      rw [List.map_replicate]
      simp
    rw [this]
    simp

theorem npArgmax_lt_length (xs : List ℚ) (h : xs ≠ []) :
    npArgmax xs < xs.length := by
  induction xs with
  | nil => simp at h
  | cons x xs ih =>
    cases xs with
    | nil => simp [npArgmax]
    | cons y ys =>
      simp only [npArgmax]
      split
      · simpa using Nat.succ_lt_succ (ih (by simp))
      · simp

theorem getD_le_npArgmax (xs : List ℚ) (j : Nat) (hj : j < xs.length) :
    xs.getD j 0 ≤ xs.getD (npArgmax xs) 0 := by
  induction xs generalizing j with
  | nil => simp at hj
  | cons x xs ih =>
    cases xs with
    | nil =>
      have hj0 : j = 0 := by simpa using hj
      subst hj0
      simp [npArgmax]
    | cons y ys =>
      simp only [npArgmax]
      split
      · rename_i hlt
        cases j with
        | zero => simpa using le_of_lt hlt
        | succ j =>
          simp only [List.getD_cons_succ]
          exact ih j (by simp only [List.length_cons] at hj ⊢; omega)
      · rename_i hge
        cases j with
        | zero => simp
        | succ j =>
          simp only [List.getD_cons_succ, List.getD_cons_zero]
          exact le_trans (ih j (by simp only [List.length_cons] at hj ⊢; omega))
            (not_lt.mp hge)

theorem lt_npArgmax_getD (xs : List ℚ) (j : Nat) (hj : j < npArgmax xs) :
    xs.getD j 0 < xs.getD (npArgmax xs) 0 := by
  induction xs generalizing j with
  | nil => simp [npArgmax] at hj
  | cons x xs ih =>
    cases xs with
    | nil => simp [npArgmax] at hj
    | cons y ys =>
      by_cases hlt : x < (y :: ys).getD (npArgmax (y :: ys)) 0
      · simp only [npArgmax, if_pos hlt] at hj ⊢
        cases j with
        | zero => simpa using hlt
        | succ j =>
          simp only [List.getD_cons_succ]
          exact ih j (by omega)
      · simp only [npArgmax, if_neg hlt] at hj
        exact absurd hj (Nat.not_lt_zero j)

theorem sorted_getD_mono (l : List ℚ) (hl : List.Sorted (· ≤ ·) l)
    {a b : Nat} (hab : a ≤ b) (hb : b < l.length) :
    l.getD a 0 ≤ l.getD b 0 := by
  rcases eq_or_lt_of_le hab with rfl | hab'
  · exact le_refl _
  · rw [List.getD_eq_getElem l 0 (lt_of_le_of_lt hab hb),
      List.getD_eq_getElem l 0 hb]
    exact List.pairwise_iff_getElem.mp hl a b (lt_of_le_of_lt hab hb) hb hab'

end Gluten

namespace Gluten

/-- C1 (amended): for a series with at least two samples whose first two
timestamps satisfy `t0 < t1`, `inferRate` returns the positive value
`1/(t1-t0)`; for equal first timestamps it does NOT fail but silently
returns an infinite rate (numpy float division by zero); for a series with
fewer than two samples it raises the generic `IndexError` of `iloc[1]`
(no typed `InvalidSamplingError` exists in the code). -/
theorem claim1_inferRate :
    (∀ t0 t1 : ℚ, ∀ rest : List ℚ, t0 < t1 →
      inferRate (t0 :: t1 :: rest) = .ok (.fin (1 / (t1 - t0))) ∧
      0 < 1 / (t1 - t0)) ∧
    (∀ t0 : ℚ, ∀ rest : List ℚ, inferRate (t0 :: t0 :: rest) = .ok .inf) ∧
    inferRate [] = .error .indexError ∧
    (∀ t : ℚ, inferRate [t] = .error .indexError) := by
  refine ⟨?_, ?_, rfl, fun t => rfl⟩
  · intro t0 t1 rest h
    have hne : t1 - t0 ≠ 0 := sub_ne_zero.mpr (ne_of_gt h)
    constructor
    · simp [inferRate, hne]
    · have : 0 < t1 - t0 := sub_pos.mpr h
      positivity
  · intro t0 rest
    simp [inferRate]

/-- C1 counterexample: with `t[1] == t[0]` the code silently produces an
infinite sampling rate instead of failing. -/
theorem claim1_cex : inferRate [(0 : ℚ), 0, 1] = .ok .inf := by
  simp [inferRate]

/-- C1 witness at the concrete series `[0, 1]`. -/
theorem claim1_witness :
    inferRate [(0 : ℚ), 1] = .ok (.fin (1 / (1 - 0))) ∧
    (0 : ℚ) < 1 / (1 - 0) :=
  claim1_inferRate.1 0 1 [] (by norm_num)

/-- C4 (amended): `window_size = int(sampling_rate * 10)` truncates toward
zero (floor for a nonnegative rate, ceiling for a negative one); it does
not round to the nearest integer. -/
theorem claim4_windowSize :
    (∀ q : ℚ, 0 ≤ q → windowSize (.fin q) = .ok ⌊q * 10⌋) ∧
    (∀ q : ℚ, q < 0 → windowSize (.fin q) = .ok ⌈q * 10⌉) := by
  constructor
  · intro q hq
    have h10 : (0 : ℚ) ≤ q * 10 := by positivity
    simp [windowSize, pyInt, h10]
  · intro q hq
    have h10 : ¬ (0 : ℚ) ≤ q * 10 := by nlinarith
    simp [windowSize, pyInt, h10]

/-- C4 counterexample: at sampling rate `5/3` (time step `0.6 s`) the code
computes window size `16`, while rounding `50/3` to the nearest integer
would give `17`. -/
theorem claim4_cex :
    windowSize (.fin (5 / 3)) = .ok 16 ∧ round ((5 / 3 : ℚ) * 10) = 17 := by
  constructor
  · have h : pyInt ((5 / 3 : ℚ) * 10) = 16 := by
      simp only [pyInt, if_pos (by norm_num : (0 : ℚ) ≤ 5 / 3 * 10)]
      norm_num
    simp only [windowSize, h]
  · rw [round_eq]
    norm_num

/-- C4 witness at the concrete rate `5/3`. -/
theorem claim4_witness : windowSize (.fin (5 / 3)) = .ok ⌊(5 / 3 : ℚ) * 10⌋ :=
  claim4_windowSize.1 (5 / 3) (by norm_num)

/-- C10 (confirmed): the magnitude standard deviation is pandas' sample
standard deviation (divisor `n-1`): its square on a two-sample series
`[a, b]` is `(a-b)²/2`, hence the standard deviation itself is
`|a-b|/√2`; it differs from the population variant (divisor `n`) whenever
`a ≠ b`. -/
theorem claim10_sample_std (a b : ℚ) :
    sampleVar [a, b] = (a - b) ^ 2 / 2 ∧
    Real.sqrt ((sampleVar [a, b] : ℚ) : ℝ) = |(a : ℝ) - (b : ℝ)| / Real.sqrt 2 ∧
    (a ≠ b → sampleVar [a, b] ≠ popVar [a, b]) := by
  have h1 : sampleVar [a, b] = (a - b) ^ 2 / 2 := by
    simp only [sampleVar, mean, List.map_cons, List.map_nil, List.sum_cons,
      List.sum_nil, List.length_cons, List.length_nil]
    ring
  have h2 : popVar [a, b] = (a - b) ^ 2 / 4 := by
    simp only [popVar, mean, List.map_cons, List.map_nil, List.sum_cons,
      List.sum_nil, List.length_cons, List.length_nil]
    ring
  refine ⟨h1, ?_, ?_⟩
  · rw [h1]
    push_cast
    rw [Real.sqrt_div (sq_nonneg _), Real.sqrt_sq_eq_abs]
  · intro hne heq
    rw [h1, h2] at heq
    have hz : (a - b) ^ 2 = 0 := by linarith
    exact hne (sub_eq_zero.mp (sq_eq_zero_iff.mp hz))

/-- C10 witness: at `a = 0, b = 2` the sample and population variants
disagree. -/
theorem claim10_witness : sampleVar [(0 : ℚ), 2] ≠ popVar [(0 : ℚ), 2] :=
  (claim10_sample_std 0 2).2.2 (by norm_num)

/-- C6 (confirmed): the reported dominant frequency is the frequency bin of
the maximal Welch PSD value, and among tied maximal bins the lowest
(first, in ascending-frequency order) is chosen: `np.argmax` returns the
first maximising index, so every other maximising bin has an
equal-or-higher frequency. -/
theorem claim6_dominant_frequency (freqs psd : List ℚ)
    (hne : psd ≠ []) (hlen : freqs.length = psd.length)
    (hsorted : List.Sorted (· ≤ ·) freqs) :
    npArgmax psd < psd.length ∧
    (∀ j, j < psd.length → psd.getD j 0 ≤ psd.getD (npArgmax psd) 0) ∧
    dominantFreq freqs psd = freqs.getD (npArgmax psd) 0 ∧
    (∀ j, j < psd.length → psd.getD (npArgmax psd) 0 ≤ psd.getD j 0 →
      dominantFreq freqs psd ≤ freqs.getD j 0) := by
  refine ⟨npArgmax_lt_length psd hne, fun j hj => getD_le_npArgmax psd j hj,
    rfl, ?_⟩
  intro j hj hmax
  have hk : npArgmax psd ≤ j := by
    by_contra hlt
    exact absurd hmax (not_le.mpr (lt_npArgmax_getD psd j (not_le.mp hlt)))
  exact sorted_getD_mono freqs hsorted hk (by omega)

/-- C6 witness at `freqs = [0, 1, 2]`, `psd = [1, 3, 3]`: the tie between
bins 1 and 2 is broken toward the lower frequency. -/
theorem claim6_witness :
    npArgmax [(1 : ℚ), 3, 3] < 3 ∧
    dominantFreq [(0 : ℚ), 1, 2] [(1 : ℚ), 3, 3] ≤ ([(0 : ℚ), 1, 2]).getD 2 0 := by
  have h := claim6_dominant_frequency [(0 : ℚ), 1, 2] [(1 : ℚ), 3, 3]
    (by decide) (by decide) (by decide)
  exact ⟨h.1, h.2.2.2 2 (by decide) (by decide)⟩

theorem t_lt_coef_iff (m v t : ℚ) (hm : 0 < m) (_hv : 0 ≤ v) (ht : 0 ≤ t) :
    ((t : ℝ) < Real.sqrt v / m ↔ t ^ 2 * m ^ 2 < v) := by
  have hM : (0 : ℝ) < (m : ℚ) := by exact_mod_cast hm
  rw [lt_div_iff₀ hM, Real.lt_sqrt (by positivity)]
  rw [show ((t : ℝ) * m) ^ 2 = (t : ℝ) ^ 2 * (m : ℝ) ^ 2 by ring]
  exact_mod_cast Iff.rfl

/-- C5 (confirmed): the variation coefficient is `std/mean` of the magnitude
channel and its classification boundaries are exact: `> 0.10` high,
`(0.05, 0.10]` moderate, `≤ 0.05` low; the five probe values map to
low, low, moderate, moderate, high. -/
theorem claim5_boundaries :
    (classifyCoefficient (4 / 100) = "low" ∧
     classifyCoefficient (5 / 100) = "low" ∧
     classifyCoefficient (6 / 100) = "moderate" ∧
     classifyCoefficient (10 / 100) = "moderate" ∧
     classifyCoefficient (11 / 100) = "high") ∧
    (∀ c : ℚ,
      (classifyCoefficient c = "high" ↔ 1 / 10 < c) ∧
      (classifyCoefficient c = "moderate" ↔ 1 / 20 < c ∧ c ≤ 1 / 10) ∧
      (classifyCoefficient c = "low" ↔ c ≤ 1 / 20)) ∧
    (∀ xs : List ℚ, 0 < mean xs →
      ((classifyVariation xs = "high" ↔
          (1 / 10 : ℝ) < Real.sqrt (sampleVar xs) / (mean xs : ℝ)) ∧
       (classifyVariation xs = "moderate" ↔
          ((1 / 20 : ℝ) < Real.sqrt (sampleVar xs) / (mean xs : ℝ) ∧
            Real.sqrt (sampleVar xs) / (mean xs : ℝ) ≤ 1 / 10)) ∧
       (classifyVariation xs = "low" ↔
          Real.sqrt (sampleVar xs) / (mean xs : ℝ) ≤ 1 / 20))) := by
  refine ⟨?_, ?_, ?_⟩
  · refine ⟨?_, ?_, ?_, ?_, ?_⟩ <;> unfold classifyCoefficient
    · rw [if_neg (by norm_num), if_neg (by norm_num)]
    · rw [if_neg (by norm_num), if_neg (by norm_num)]
    · rw [if_neg (by norm_num), if_pos (by norm_num)]
    · rw [if_neg (by norm_num), if_pos (by norm_num)]
    · rw [if_pos (by norm_num)]
  · intro c
    unfold classifyCoefficient
    split_ifs with h1 h2
    · refine ⟨⟨fun _ => h1, fun _ => rfl⟩, ?_, ?_⟩
      · exact ⟨fun hs => absurd hs (by decide),
          fun hc => absurd h1 (not_lt.mpr hc.2)⟩
      · exact ⟨fun hs => absurd hs (by decide),
          fun hc => absurd h1 (not_lt.mpr (le_trans hc (by norm_num)))⟩
    · exact ⟨⟨fun hs => absurd hs (by decide), fun hc => absurd hc h1⟩,
        ⟨fun _ => ⟨h2, not_lt.mp h1⟩, fun _ => rfl⟩,
        ⟨fun hs => absurd hs (by decide), fun hc => absurd h2 (not_lt.mpr hc)⟩⟩
    · exact ⟨⟨fun hs => absurd hs (by decide), fun hc => absurd hc h1⟩,
        ⟨fun hs => absurd hs (by decide), fun hc => absurd hc.1 h2⟩,
        ⟨fun _ => not_lt.mp h2, fun _ => rfl⟩⟩
  · intro xs hm
    have hv := sampleVar_nonneg xs
    have h10 := t_lt_coef_iff (mean xs) (sampleVar xs) (1 / 10) hm hv (by norm_num)
    have h20 := t_lt_coef_iff (mean xs) (sampleVar xs) (1 / 20) hm hv (by norm_num)
    rw [show (((1 / 10 : ℚ)) : ℝ) = (1 / 10 : ℝ) by norm_num] at h10
    rw [show (((1 / 20 : ℚ)) : ℝ) = (1 / 20 : ℝ) by norm_num] at h20
    have e10 : ((1 / 10 : ℚ) ^ 2 * (mean xs) ^ 2 < sampleVar xs) ↔
        (mean xs) ^ 2 < 100 * sampleVar xs := by
      constructor <;> intro h <;> nlinarith
    have e20 : ((1 / 20 : ℚ) ^ 2 * (mean xs) ^ 2 < sampleVar xs) ↔
        (mean xs) ^ 2 < 400 * sampleVar xs := by
      constructor <;> intro h <;> nlinarith
    rw [e10] at h10
    rw [e20] at h20
    unfold classifyVariation
    split_ifs with h1 h2
    · refine ⟨⟨fun _ => h10.mpr h1, fun _ => rfl⟩, ?_, ?_⟩
      · refine ⟨fun hs => absurd hs (by decide), fun hc => ?_⟩
        exact absurd (h10.mpr h1) (not_lt.mpr hc.2)
      · refine ⟨fun hs => absurd hs (by decide), fun hc => ?_⟩
        have := h10.mpr h1
        linarith
    · refine ⟨?_, ?_, ?_⟩
      · exact ⟨fun hs => absurd hs (by decide),
          fun hc => absurd (h10.mp hc) h1⟩
      · exact ⟨fun _ => ⟨h20.mpr h2, not_lt.mp ((not_congr h10).mpr h1)⟩,
          fun _ => rfl⟩
      · refine ⟨fun hs => absurd hs (by decide), fun hc => ?_⟩
        have := h20.mpr h2
        linarith
    · refine ⟨?_, ?_, ?_⟩
      · exact ⟨fun hs => absurd hs (by decide),
          fun hc => absurd (h10.mp hc) h1⟩
      · exact ⟨fun hs => absurd hs (by decide),
          fun hc => absurd (h20.mp hc.1) h2⟩
      · exact ⟨fun _ => not_lt.mp ((not_congr h20).mpr h2), fun _ => rfl⟩

/-- C5 witness at the concrete series `[2, 4]` (mean `3`, squared std `2`):
the coefficient exceeds `0.1`, so the classification is "high". -/
theorem claim5_witness :
    classifyVariation [(2 : ℚ), 4] = "high" ↔
      (1 / 10 : ℝ) < Real.sqrt (sampleVar [(2 : ℚ), 4]) / (mean [(2 : ℚ), 4] : ℝ) :=
  ((claim5_boundaries.2.2 [(2 : ℚ), 4] (by norm_num [mean])).1)

/-- C7 (amended): when the rolling indicator holds no defined values, the
75th-percentile computation does not fail: pandas' `quantile` yields NaN
(`none`) and the comparison count is `0` (comparisons with NaN are all
`False`); no `NoActivityDataError` exists in the code. -/
theorem claim7_quantile (rs : List (Option ℚ)) (h : ∀ o ∈ rs, o = none) :
    quantile75 rs = none ∧ highActivityCount rs = 0 := by
  have hnil : rs.filterMap id = [] := by
    rw [List.filterMap_eq_nil_iff]
    intro a ha
    exact h a ha
  have hq : quantile75 rs = none := by
    unfold quantile75
    rw [hnil]
    rfl
  refine ⟨hq, ?_⟩
  unfold highActivityCount
  rw [hq]

/-- C7 counterexample: on an all-undefined rolling sequence the aggregation
silently yields an undefined threshold and count `0` instead of failing. -/
theorem claim7_cex :
    quantile75 [none, none] = none ∧ highActivityCount [none, none] = 0 := by
  constructor <;> rfl

/-- C7 witness at the concrete all-undefined sequence of length 3. -/
theorem claim7_witness :
    quantile75 [none, none, none] = none ∧
      highActivityCount [none, none, none] = 0 :=
  claim7_quantile [none, none, none] (by simp)

/-- C8 (amended): a rolling window below 2 does not raise a typed
`InvalidWindowError`: windows `0` and `1` return a normal all-undefined
sequence of the input's length, and only a negative window fails, with
pandas' generic `ValueError`. -/
theorem claim8_window (xs : List ℚ) :
    rollingStdDev xs 1 = .ok (List.replicate xs.length none) ∧
    rollingStdDev xs 0 = .ok (List.replicate xs.length none) ∧
    (∀ w : ℤ, w < 0 → rollingStdDev xs w = .error .valueError) := by
  have h1 : rollingVarQ xs 1 = List.replicate xs.length none := by
    unfold rollingVarQ
    rw [show (fun i => if 2 ≤ 1 ∧ 1 / 2 ≤ i ∧ i + (1 - 1) / 2 < xs.length then
        some (sampleVar ((xs.drop (i - 1 / 2)).take 1)) else (none : Option ℚ))
      = fun _ => none from funext fun i => by simp]
    rw [List.map_const', List.length_range]
  have h0 : rollingVarQ xs 0 = List.replicate xs.length none := by
    unfold rollingVarQ
    rw [show (fun i => if 2 ≤ 0 ∧ 0 / 2 ≤ i ∧ i + (0 - 1) / 2 < xs.length then
        some (sampleVar ((xs.drop (i - 0 / 2)).take 0)) else (none : Option ℚ))
      = fun _ => none from funext fun i => by simp]
    rw [List.map_const', List.length_range]
  refine ⟨?_, ?_, ?_⟩
  · rw [rollingStdDev, if_neg (by norm_num)]
    rw [show ((1 : ℤ).toNat) = 1 from rfl, h1]
  · rw [rollingStdDev, if_neg (by norm_num)]
    rw [show ((0 : ℤ).toNat) = 0 from rfl, h0]
  · intro w hw
    rw [rollingStdDev, if_pos hw]

/-- C8 counterexample: at window size 1 the code returns a normal
(all-undefined) sequence rather than failing. -/
theorem claim8_cex :
    rollingStdDev [(1 : ℚ), 2, 3] 1 = .ok [none, none, none] := rfl

/-- C8 witness at the concrete input `[5, 7]`. -/
theorem claim8_witness :
    rollingStdDev [(5 : ℚ), 7] (-3) = .error .valueError :=
  (claim8_window [(5 : ℚ), 7]).2.2 (-3) (by norm_num)

/-- C3 (amended): `rollingStdDev` preserves the input length; position `i`
is undefined exactly when no full centered window exists, namely on the
first `⌊w/2⌋` and the last `⌊(w-1)/2⌋` positions (pandas' centering is
left-heavy for even windows, so "within `w/2` of either edge" is not the
precise boundary); on a constant input every defined entry is `0`. -/
theorem rollingVarQ_length (xs : List ℚ) (w : Nat) :
    (rollingVarQ xs w).length = xs.length := by
  simp [rollingVarQ]

theorem rollingVarQ_getD (xs : List ℚ) (w i : Nat) (hi : i < xs.length) :
    (rollingVarQ xs w).getD i none =
      if 2 ≤ w ∧ w / 2 ≤ i ∧ i + (w - 1) / 2 < xs.length then
        some (sampleVar ((xs.drop (i - w / 2)).take w))
      else none := by
  have hlen : i < ((List.range xs.length).map fun i =>
      if 2 ≤ w ∧ w / 2 ≤ i ∧ i + (w - 1) / 2 < xs.length then
        some (sampleVar ((xs.drop (i - w / 2)).take w))
      else none).length := by
    simpa using hi
  unfold rollingVarQ
  rw [List.getD_eq_getElem _ _ hlen, List.getElem_map, List.getElem_range]

theorem claim3_rolling :
    (∀ xs : List ℚ, ∀ w : Nat, 2 ≤ w →
      (rollingVarQ xs w).length = xs.length ∧
      (∀ i, i < xs.length →
        ((rollingVarQ xs w).getD i none = none ↔
          i < w / 2 ∨ xs.length ≤ i + (w - 1) / 2))) ∧
    (∀ n : Nat, ∀ c : ℚ, ∀ w : Nat, ∀ i : Nat, ∀ q : ℚ,
      (rollingVarQ (List.replicate n c) w).getD i none = some q → q = 0) := by
  constructor
  · intro xs w hw
    refine ⟨rollingVarQ_length xs w, ?_⟩
    intro i hi
    rw [rollingVarQ_getD xs w i hi]
    split_ifs with hc
    · simp only [reduceCtorEq, false_iff]
      omega
    · simp only [true_iff]
      omega
  · intro n c w i q hq
    by_cases hi : i < n
    · rw [rollingVarQ_getD _ w i (by simpa using hi)] at hq
      split_ifs at hq with hc
      · have hs : sampleVar (((List.replicate n c).drop (i - w / 2)).take w) = q :=
          Option.some.inj hq
        rw [List.drop_replicate, List.take_replicate, sampleVar_replicate] at hs
        exact hs.symm
    · have hlen : (rollingVarQ (List.replicate n c) w).length ≤ i := by
        rw [rollingVarQ_length]
        simpa using Nat.le_of_not_lt hi
      rw [List.getD_eq_default _ _ hlen] at hq
      exact absurd hq (by simp)

/-- C3 counterexample: with window 5 on a length-6 constant series, position
2 lies within `5/2 = 2.5` of the left edge yet is defined (its full centered
window exists), so "within `windowSamples/2` of either edge implies
undefined" is false as literally stated. -/
theorem claim3_cex :
    (rollingVarQ (List.replicate 6 (0 : ℚ)) 5).getD 2 none = some 0 ∧
      (2 : ℚ) < 5 / 2 := by
  constructor
  · rw [rollingVarQ_getD _ 5 2 (by simp)]
    rw [if_pos (by simp)]
    rw [List.drop_replicate, List.take_replicate]
    rw [show min 5 (6 - (2 - 5 / 2)) = 5 from rfl, sampleVar_replicate]
  · norm_num

/-- C3 witness at the concrete series `[1, 2, 3, 4]` with window 2. -/
theorem claim3_witness :
    (rollingVarQ [(1 : ℚ), 2, 3, 4] 2).getD 1 none ≠ none ∧
      (rollingVarQ [(1 : ℚ), 2, 3, 4] 2).length = 4 := by
  have h := claim3_rolling.1 [(1 : ℚ), 2, 3, 4] 2 (by norm_num)
  refine ⟨?_, h.1⟩
  intro hnone
  have h2 := (h.2 1 (by norm_num)).mp hnone
  simp at h2

end Gluten

namespace Gluten

theorem add_half_sqrt_le_iff (M V W : ℝ) (hW : 0 ≤ W) :
    M + Real.sqrt W / 2 ≤ V ↔ (M ≤ V ∧ W ≤ 4 * (V - M) ^ 2) := by
  constructor
  · intro h
    have hs : 0 ≤ Real.sqrt W := Real.sqrt_nonneg W
    have hMV : M ≤ V := by linarith
    refine ⟨hMV, ?_⟩
    have h2 : Real.sqrt W ≤ 2 * (V - M) := by linarith
    have h3 : Real.sqrt W ^ 2 ≤ (2 * (V - M)) ^ 2 := by nlinarith
    rw [Real.sq_sqrt hW] at h3
    nlinarith [h3]
  · rintro ⟨hMV, hsq⟩
    have h2 : Real.sqrt W ≤ 2 * (V - M) := by
      rw [show (4 : ℝ) * (V - M) ^ 2 = (2 * (V - M)) ^ 2 by ring] at hsq
      calc Real.sqrt W ≤ Real.sqrt ((2 * (V - M)) ^ 2) := Real.sqrt_le_sqrt hsq
        _ = |2 * (V - M)| := Real.sqrt_sq_eq_abs _
        _ = 2 * (V - M) := abs_of_nonneg (by linarith)
    linarith

theorem heightOK_iff_real (v m w : ℚ) (hw : 0 ≤ w) :
    (heightOK v m w = true ↔ (m : ℝ) + Real.sqrt w / 2 ≤ (v : ℝ)) := by
  unfold heightOK
  rw [Bool.and_eq_true, decide_eq_true_eq, decide_eq_true_eq]
  rw [add_half_sqrt_le_iff _ _ _ (by exact_mod_cast hw)]
  constructor
  · rintro ⟨h1, h2⟩
    refine ⟨by exact_mod_cast h1, ?_⟩
    have h3 : ((w : ℚ) : ℝ) ≤ ((4 * (v - m) ^ 2 : ℚ) : ℝ) := by exact_mod_cast h2
    push_cast at h3
    linarith
  · rintro ⟨h1, h2⟩
    refine ⟨by exact_mod_cast h1, ?_⟩
    have h3 : ((w : ℚ) : ℝ) ≤ ((4 * (v - m) ^ 2 : ℚ) : ℝ) := by push_cast; linarith
    exact_mod_cast h3

theorem lmAux_stop (x : List ℚ) (i : Nat) (h1 : ¬ i + 1 < x.length) :
    lmAux x i = [] := by
  rw [lmAux, if_neg h1]

theorem lmAux_norise (x : List ℚ) (i : Nat) (h1 : i + 1 < x.length)
    (h2 : ¬ idx x (i - 1) < idx x i) : lmAux x i = lmAux x (i + 1) := by
  rw [lmAux, if_pos h1, if_neg h2]

theorem lmAux_nopeak (x : List ℚ) (i : Nat) (h1 : i + 1 < x.length)
    (h2 : idx x (i - 1) < idx x i)
    (h3 : ¬ idx x (plateauEnd x (x.length - 1) (idx x i) (i + 1)) < idx x i) :
    lmAux x i = lmAux x (i + 1) := by
  rw [lmAux, if_pos h1, if_pos h2]
  exact if_neg h3

theorem lmAux_peak (x : List ℚ) (i : Nat) (h1 : i + 1 < x.length)
    (h2 : idx x (i - 1) < idx x i)
    (h3 : idx x (plateauEnd x (x.length - 1) (idx x i) (i + 1)) < idx x i) :
    lmAux x i = (i + (plateauEnd x (x.length - 1) (idx x i) (i + 1) - 1)) / 2 ::
      lmAux x (plateauEnd x (x.length - 1) (idx x i) (i + 1) + 1) := by
  rw [lmAux, if_pos h1, if_pos h2]
  exact if_pos h3

theorem mem_lmAux_bounds (x : List ℚ) :
    ∀ d i, x.length - i ≤ d → ∀ p ∈ lmAux x i, i ≤ p ∧ p + 1 < x.length := by
  intro d
  induction d with
  | zero =>
    intro i hd p hp
    rw [lmAux_stop x i (by omega)] at hp
    exact absurd hp (List.not_mem_nil p)
  | succ d ih =>
    intro i hd p hp
    by_cases h1 : i + 1 < x.length
    · by_cases h2 : idx x (i - 1) < idx x i
      · set ia := plateauEnd x (x.length - 1) (idx x i) (i + 1) with hia
        have hia1 : i + 1 ≤ ia := le_plateauEnd x (x.length - 1) (idx x i) (i + 1)
        have hia2 : ia ≤ x.length - 1 :=
          plateauEnd_le x (x.length - 1) (idx x i) (i + 1) (by omega)
        by_cases h3 : idx x ia < idx x i
        · rw [lmAux_peak x i h1 h2 h3] at hp
          rcases List.mem_cons.mp hp with rfl | hp'
          · omega
          · have := ih (ia + 1) (by omega) p hp'
            omega
        · rw [lmAux_nopeak x i h1 h2 h3] at hp
          have := ih (i + 1) (by omega) p hp
          omega
      · rw [lmAux_norise x i h1 h2] at hp
        have := ih (i + 1) (by omega) p hp
        omega
    · rw [lmAux_stop x i h1] at hp
      exact absurd hp (List.not_mem_nil p)

theorem plateauEnd_adjDistinct (x : List ℚ)
    (had : ∀ k, k + 1 < x.length → idx x k ≠ idx x (k + 1))
    (i : Nat) (h1 : i + 1 < x.length) :
    plateauEnd x (x.length - 1) (idx x i) (i + 1) = i + 1 := by
  rw [plateauEnd, if_neg]
  rintro ⟨hj, he⟩
  exact had i h1 he.symm

theorem strictPeakb_iff (x : List ℚ) (p : Nat) :
    strictPeakb x p = true ↔
      (1 ≤ p ∧ p + 1 < x.length ∧ idx x (p - 1) < idx x p ∧
        idx x (p + 1) < idx x p) := by
  simp [strictPeakb, and_assoc]

theorem lmAux_eq_filter (x : List ℚ)
    (had : ∀ k, k + 1 < x.length → idx x k ≠ idx x (k + 1)) :
    ∀ d i, x.length - i ≤ d → 1 ≤ i →
      lmAux x i = (List.range' i (x.length - i)).filter (strictPeakb x) := by
  intro d
  induction d with
  | zero =>
    intro i hd hi
    rw [lmAux_stop x i (by omega), show x.length - i = 0 by omega]
    rfl
  | succ d ih =>
    intro i hd hi
    by_cases h1 : i + 1 < x.length
    · have hsplit : x.length - i = (x.length - (i + 1)) + 1 := by omega
      rw [hsplit, List.range'_succ]
      by_cases h2 : idx x (i - 1) < idx x i
      · have hia := plateauEnd_adjDistinct x had i h1
        by_cases h3 : idx x (plateauEnd x (x.length - 1) (idx x i) (i + 1)) <
            idx x i
        · rw [lmAux_peak x i h1 h2 h3, hia] at *
          rw [hia] at h3
          have hmid : (i + (i + 1 - 1)) / 2 = i := by omega
          rw [hmid]
          have hpi : strictPeakb x i = true := by
            rw [strictPeakb_iff]
            exact ⟨hi, h1, h2, h3⟩
          rw [List.filter_cons_of_pos hpi]
          by_cases h4 : i + 2 < x.length
          · have hsplit2 : x.length - (i + 1) = (x.length - (i + 2)) + 1 := by
              omega
            rw [hsplit2, List.range'_succ]
            have hpi1 : strictPeakb x (i + 1) = false := by
              rw [Bool.eq_false_iff]
              intro hc
              rw [strictPeakb_iff] at hc
              have : idx x (i + 1 - 1) < idx x (i + 1) := hc.2.2.1
              rw [show i + 1 - 1 = i from rfl] at this
              exact absurd this (not_lt.mpr (le_of_lt h3))
            rw [List.filter_cons_of_neg (by simp [hpi1])]
            exact congrArg _ (ih (i + 2) (by omega) (by omega))
          · have hz : x.length - (i + 1) = 1 := by omega
            rw [hz]
            rw [show List.range' (i + 1) 1 = [i + 1] from rfl]
            have hstop : lmAux x (i + 1 + 1) = [] := lmAux_stop x (i + 2) (by omega)
            rw [hstop]
            have hpi1 : strictPeakb x (i + 1) = false := by
              rw [Bool.eq_false_iff]
              intro hc
              rw [strictPeakb_iff] at hc
              omega
            rw [List.filter_cons_of_neg (by simp [hpi1]), List.filter_nil]
        · rw [lmAux_nopeak x i h1 h2 h3]
          rw [hia] at h3
          have hpi : strictPeakb x i = false := by
            rw [Bool.eq_false_iff]
            intro hc
            rw [strictPeakb_iff] at hc
            exact h3 hc.2.2.2
          rw [List.filter_cons_of_neg (by simp [hpi])]
          exact ih (i + 1) (by omega) (by omega)
      · rw [lmAux_norise x i h1 h2]
        have hpi : strictPeakb x i = false := by
          rw [Bool.eq_false_iff]
          intro hc
          rw [strictPeakb_iff] at hc
          exact h2 hc.2.2.1
        rw [List.filter_cons_of_neg (by simp [hpi])]
        exact ih (i + 1) (by omega) (by omega)
    · rw [lmAux_stop x i h1]
      by_cases hn : x.length - i = 0
      · rw [hn]
        rfl
      · have hone : x.length - i = 1 := by omega
        rw [hone, show List.range' i 1 = [i] from rfl]
        have hpi : strictPeakb x i = false := by
          rw [Bool.eq_false_iff]
          intro hc
          rw [strictPeakb_iff] at hc
          omega
        rw [List.filter_cons_of_neg (by simp [hpi]), List.filter_nil]

theorem localMaxima_eq_filter (x : List ℚ)
    (had : ∀ k, k + 1 < x.length → idx x k ≠ idx x (k + 1)) :
    localMaxima x = (List.range' 1 (x.length - 1)).filter (strictPeakb x) :=
  lmAux_eq_filter x had (x.length - 1) 1 (by omega) (by omega)

theorem filter_eq_singleton_of_unique {p : Nat → Bool} :
    ∀ l : List Nat, l.Nodup → ∀ a ∈ l, p a = true →
      (∀ b ∈ l, b ≠ a → p b = false) → l.filter p = [a] := by
  intro l
  induction l with
  | nil => intro _ a ha; exact absurd ha (List.not_mem_nil a)
  | cons h t ih =>
    intro hnd a ha hpa hother
    rcases List.mem_cons.mp ha with rfl | hat
    · rw [List.filter_cons_of_pos hpa]
      have : t.filter p = [] := by
        rw [List.filter_eq_nil_iff]
        intro b hb
        have hne : b ≠ a := by
          rintro rfl
          exact (List.nodup_cons.mp hnd).1 hb
        simp [hother b (List.mem_cons_of_mem a hb) hne]
      rw [this]
    · have hne : h ≠ a := by
        rintro rfl
        exact (List.nodup_cons.mp hnd).1 hat
      rw [List.filter_cons_of_neg (by simp [hother h (List.mem_cons_self h t) hne])]
      exact ih (List.nodup_cons.mp hnd).2 a hat hpa
        (fun b hb => hother b (List.mem_cons_of_mem h hb))

end Gluten

namespace Gluten

/-- C2 (amended): `find_peaks` never flags the first or last sample; its
`height` filter keeps peaks whose value meets or exceeds the threshold
(`>=`, not strictly exceeds), where the threshold comparison against
`mean + 0.5*std` is faithfully encoded by `heightOK`; on signals with no
two equal adjacent samples (no plateaus) an index is flagged iff it is a
strict two-sided local maximum meeting the threshold; for a single
triangular pulse whose apex meets the threshold, exactly the apex is
returned.  (scipy additionally flags midpoints of interior plateaus, which
is what the original claim's strict-neighbour iff misses.) -/
theorem claim2_detectPeaks :
    (∀ x : List ℚ, ∀ m w : ℚ, ∀ p ∈ findPeaks x m w, 1 ≤ p ∧ p + 1 < x.length) ∧
    (∀ v m w : ℚ, 0 ≤ w →
      (heightOK v m w = true ↔ (m : ℝ) + Real.sqrt w / 2 ≤ (v : ℝ))) ∧
    (∀ x : List ℚ, (∀ k, k + 1 < x.length → idx x k ≠ idx x (k + 1)) →
      ∀ m w : ℚ, ∀ p : Nat,
        (p ∈ findPeaks x m w ↔
          strictPeakb x p = true ∧ heightOK (idx x p) m w = true)) ∧
    (∀ x : List ℚ, ∀ m w : ℚ, ∀ a : Nat, 1 ≤ a → a + 1 < x.length →
      (∀ i, i < a → idx x i < idx x (i + 1)) →
      (∀ i, a ≤ i → i + 1 < x.length → idx x (i + 1) < idx x i) →
      heightOK (idx x a) m w = true →
      findPeaks x m w = [a]) := by
  refine ⟨?_, heightOK_iff_real, ?_, ?_⟩
  · intro x m w p hp
    have h1 := (List.mem_filter.mp hp).1
    have h2 := mem_lmAux_bounds x x.length 1 (by omega) p h1
    exact ⟨h2.1, h2.2⟩
  · intro x had m w p
    constructor
    · intro hp
      have h1 := List.mem_filter.mp hp
      have h2 := h1.1
      rw [localMaxima_eq_filter x had] at h2
      exact ⟨(List.mem_filter.mp h2).2, h1.2⟩
    · rintro ⟨hs, hh⟩
      apply List.mem_filter.mpr
      refine ⟨?_, hh⟩
      rw [localMaxima_eq_filter x had]
      apply List.mem_filter.mpr
      refine ⟨?_, hs⟩
      rw [strictPeakb_iff] at hs
      rw [List.mem_range'_1]
      omega
  · intro x m w a ha1 ha2 hinc hdec hh
    have had : ∀ k, k + 1 < x.length → idx x k ≠ idx x (k + 1) := by
      intro k hk
      by_cases hlt : k < a
      · exact ne_of_lt (hinc k hlt)
      · exact (ne_of_lt (hdec k (by omega) hk)).symm
    unfold findPeaks
    rw [localMaxima_eq_filter x had, List.filter_filter]
    apply filter_eq_singleton_of_unique _ (List.nodup_range' 1 (x.length - 1))
    · rw [List.mem_range'_1]
      omega
    · rw [Bool.and_eq_true]
      constructor
      · exact hh
      · rw [strictPeakb_iff]
        refine ⟨ha1, ha2, ?_, hdec a (le_refl a) ha2⟩
        have h := hinc (a - 1) (by omega)
        rw [show a - 1 + 1 = a by omega] at h
        exact h
    · intro b hb hne
      rw [Bool.eq_false_iff]
      intro hc
      rw [Bool.and_eq_true] at hc
      rcases (strictPeakb_iff x b).mp hc.2 with ⟨hb1, hb2, hb3, hb4⟩
      rcases Nat.lt_or_ge b a with hba | hba
      · exact absurd (hinc b hba) (not_lt.mpr (le_of_lt hb4))
      · have hba' : a ≤ b - 1 := by omega
        have h := hdec (b - 1) hba' (by omega)
        rw [show b - 1 + 1 = b by omega] at h
        exact absurd hb3 (not_lt.mpr (le_of_lt h))

/-- C2 counterexample, two concrete violations of the claim's iff:
on `[0, 8, 0, 12]` (mean 5, std 6, threshold 8) the strict local maximum 8
at index 1 equals the threshold exactly and is still flagged (scipy's
height filter is `>=`, the claim's "exceeds" is strict); on
`[0, 2, 2, 0, 1]` (mean 1, std 1, threshold 1.5) index 1, the midpoint of
the plateau `2, 2`, is flagged although its value is not strictly greater
than its right neighbour. -/
theorem claim2_cex :
    findPeaks [(0 : ℚ), 8, 0, 12] 5 36 = [1] ∧
    mean [(0 : ℚ), 8, 0, 12] = 5 ∧
    sampleVar [(0 : ℚ), 8, 0, 12] = 36 ∧
    (idx [(0 : ℚ), 8, 0, 12] 1 : ℝ) = (5 : ℝ) + Real.sqrt 36 / 2 ∧
    findPeaks [(0 : ℚ), 2, 2, 0, 1] 1 1 = [1] ∧
    mean [(0 : ℚ), 2, 2, 0, 1] = 1 ∧
    sampleVar [(0 : ℚ), 2, 2, 0, 1] = 1 ∧
    idx [(0 : ℚ), 2, 2, 0, 1] 1 = idx [(0 : ℚ), 2, 2, 0, 1] 2 := by
  have hadA : ∀ k, k + 1 < ([(0 : ℚ), 8, 0, 12] : List ℚ).length →
      idx [(0 : ℚ), 8, 0, 12] k ≠ idx [(0 : ℚ), 8, 0, 12] (k + 1) := by
    intro k hk
    simp only [List.length_cons, List.length_nil] at hk
    have hk' : k < 3 := by omega
    interval_cases k <;> decide
  have hlmA : localMaxima [(0 : ℚ), 8, 0, 12] = [1] := by
    rw [localMaxima_eq_filter _ hadA]
    decide
  have hfpA : findPeaks [(0 : ℚ), 8, 0, 12] 5 36 = [1] := by
    unfold findPeaks
    rw [hlmA]
    rw [List.filter_cons_of_pos (by norm_num [heightOK, idx])]
    rfl
  have hpeB : plateauEnd [(0 : ℚ), 2, 2, 0, 1]
      (([(0 : ℚ), 2, 2, 0, 1] : List ℚ).length - 1)
      (idx [(0 : ℚ), 2, 2, 0, 1] 1) (1 + 1) = 3 := by
    rw [plateauEnd, if_pos (by constructor <;> decide)]
    rw [plateauEnd, if_neg (by rintro ⟨-, h⟩; exact absurd h (by decide))]
  have hlmB : localMaxima [(0 : ℚ), 2, 2, 0, 1] = [1] := by
    unfold localMaxima
    rw [lmAux_peak _ 1 (by decide) (by decide) (by rw [hpeB]; decide)]
    rw [hpeB]
    rw [lmAux_stop _ (3 + 1) (by decide)]
  have hfpB : findPeaks [(0 : ℚ), 2, 2, 0, 1] 1 1 = [1] := by
    unfold findPeaks
    rw [hlmB]
    rw [List.filter_cons_of_pos (by norm_num [heightOK, idx])]
    rfl
  have h6 : Real.sqrt 36 = 6 := by
    rw [show (36 : ℝ) = 6 ^ 2 by norm_num, Real.sqrt_sq (by norm_num : (0 : ℝ) ≤ 6)]
  refine ⟨hfpA, by norm_num [mean], by norm_num [sampleVar, mean], ?_, hfpB,
    by norm_num [mean], by norm_num [sampleVar, mean], by decide⟩
  rw [h6, show idx [(0 : ℚ), 8, 0, 12] 1 = 8 from rfl]
  norm_num

/-- C2 witness: the triangular pulse `[0, 1, 2, 3, 2, 1, 0]` with threshold
parameters `m = 2`, `w = 4` (threshold `2 + 2/2 = 3`) yields exactly the
apex index 3. -/
theorem claim2_witness :
    findPeaks [(0 : ℚ), 1, 2, 3, 2, 1, 0] 2 4 = [3] := by
  apply claim2_detectPeaks.2.2.2 [(0 : ℚ), 1, 2, 3, 2, 1, 0] 2 4 3
  · norm_num
  · simp only [List.length_cons, List.length_nil]
    norm_num
  · intro i hi
    interval_cases i <;> decide
  · intro i h1 h2
    simp only [List.length_cons, List.length_nil] at h2
    have h2' : i < 6 := by omega
    interval_cases i <;> decide
  · norm_num [heightOK, idx]

end Gluten

namespace Gluten

namespace App

/-- The output dictionary of `analyze_gluten_development` in
`gluten_analysis_app.py` (lines 52-60).  `std_gforce_sq` and the
`rolling_std` entries carry the squares of the reported standard
deviations (see the file header); since `Real.sqrt` is injective on the
nonnegative values involved, equality of the squares is equivalent to
equality of the reported values. -/
structure Analysis where
  total_time : Option ℚ
  mean_gforce : ℚ
  std_gforce_sq : ℚ
  num_peaks : Nat
  sampling_rate : PyNum
  dominant_freq : ℚ
  rolling_std : List (Option ℚ)
deriving DecidableEq, Repr

/-- Embedding of `analyze_gluten_development(df)` of `gluten_analysis_app.py`
(lines 32-62).  `welch` abstracts `scipy.signal.welch(gFTotal,
fs=sampling_rate, nperseg=1024)`, returning the pair `(freqs, psd)`; both
entry points call it with identical arguments, and no claim depends on its
numerics.  Exceptions propagate in the order the statements execute:
`iloc[1]` (sampling rate), `int()` (window size), `rolling` (window
validation). -/
def analyze_gluten_development (welch : List ℚ → PyNum → List ℚ × List ℚ)
    (df : DataFrame) : Except PyError Analysis :=
  let total_time := df.time.max?
  let mean_gforce := mean df.gFTotal
  let var_gforce := sampleVar df.gFTotal
  let peaks := findPeaks df.gFTotal mean_gforce var_gforce
  match inferRate df.time with
  | .error e => .error e
  | .ok sampling_rate =>
    let fp := welch df.gFTotal sampling_rate
    match windowSize sampling_rate with
    | .error e => .error e
    | .ok w =>
      match rollingStdDev df.gFTotal w with
      | .error e => .error e
      | .ok rolling_std =>
        .ok { total_time := total_time
              mean_gforce := mean_gforce
              std_gforce_sq := var_gforce
              num_peaks := peaks.length
              sampling_rate := sampling_rate
              dominant_freq := dominantFreq fp.1 fp.2
              rolling_std := rolling_std }

end App

namespace Simple

/-- The output dictionary of `analyze_gluten_development` in
`gluten_analysis_simple.py` (lines 49-59): the same fields as the app
variant plus the raw `freqs` and `psd` arrays. -/
structure Analysis where
  total_time : Option ℚ
  mean_gforce : ℚ
  std_gforce_sq : ℚ
  num_peaks : Nat
  sampling_rate : PyNum
  dominant_freq : ℚ
  rolling_std : List (Option ℚ)
  freqs : List ℚ
  psd : List ℚ
deriving DecidableEq, Repr

/-- Embedding of `analyze_gluten_development(df)` of `gluten_analysis_simple.py`
(lines 30-61), embedded exactly like the app variant. -/
def analyze_gluten_development (welch : List ℚ → PyNum → List ℚ × List ℚ)
    (df : DataFrame) : Except PyError Analysis :=
  let total_time := df.time.max?
  let mean_gforce := mean df.gFTotal
  let var_gforce := sampleVar df.gFTotal
  let peaks := findPeaks df.gFTotal mean_gforce var_gforce
  match inferRate df.time with
  | .error e => .error e
  | .ok sampling_rate =>
    let fp := welch df.gFTotal sampling_rate
    match windowSize sampling_rate with
    | .error e => .error e
    | .ok w =>
      match rollingStdDev df.gFTotal w with
      | .error e => .error e
      | .ok rolling_std =>
        .ok { total_time := total_time
              mean_gforce := mean_gforce
              std_gforce_sq := var_gforce
              num_peaks := peaks.length
              sampling_rate := sampling_rate
              dominant_freq := dominantFreq fp.1 fp.2
              rolling_std := rolling_std
              freqs := fp.1
              psd := fp.2 }

end Simple

/-- C9 (confirmed): on every input (and for any behaviour of the shared
`welch` library call) the two duplicated pipelines agree: they fail with
the same error or produce equal values for every field present in both
outputs (`total_time`, `mean_gforce`, `std_gforce` via its square,
`num_peaks`, `sampling_rate`, `dominant_freq`, `rolling_std`). -/
theorem claim9_pipelines_agree (welch : List ℚ → PyNum → List ℚ × List ℚ)
    (df : DataFrame) :
    (App.analyze_gluten_development welch df).map (fun a =>
      (a.total_time, a.mean_gforce, a.std_gforce_sq, a.num_peaks,
        a.sampling_rate, a.dominant_freq, a.rolling_std)) =
    (Simple.analyze_gluten_development welch df).map (fun a =>
      (a.total_time, a.mean_gforce, a.std_gforce_sq, a.num_peaks,
        a.sampling_rate, a.dominant_freq, a.rolling_std)) := by
  unfold App.analyze_gluten_development Simple.analyze_gluten_development
  cases hr : inferRate df.time with
  | error e => rfl
  | ok r =>
    dsimp only
    cases hw : windowSize r with
    | error e => rfl
    | ok w =>
      dsimp only
      cases hrs : rollingStdDev df.gFTotal w with
      | error e => rfl
      | ok rs => rfl

end Gluten
